import Mathlib

/-!
Verification of the variant-splitting and dependency-binding engine in
`android/mutator.go` (package android, build_soong).

The Go source is shallowly embedded: pure fragments become Lean functions,
the mutable registration context becomes explicit state passing, and the
Go `panic` aborts become the `Except.error` case of an `Except` result.
Code that lives outside the single source file under study (the blueprint
library functions `CreateVariations`, `AddReverseDependency` flushing, and
the proptools property-merge helpers) is modelled from the specification;
each such definition is marked `Modelled from the spec:` in its doc comment.
-/

namespace SoongMutator

/-- Debug bookkeeping fields of the common properties of a module, as used by
`CreateVariations` and `CreateLocalVariations` (fields `DebugName`,
`DebugMutators`, `DebugVariations` of `commonProperties`). -/
structure CommonProperties where
  DebugName : String := ""
  DebugMutators : List String := []
  DebugVariations : List String := []
  deriving Repr, DecidableEq

/-- A property value carried by a variable-properties struct.  The shape
(constructor) stands for the Go field type; merging two values of different
shapes is the shape mismatch that proptools reports as an
ExtendPropertyError. -/
inductive PropValue where
  | intVal (n : Int)
  | strVal (s : String)
  | listVal (xs : List String)
  deriving Repr, DecidableEq

/-- Whether two property values have the same shape (same Go field type). -/
def PropValue.sameShape : PropValue → PropValue → Bool
  | .intVal _, .intVal _ => true
  | .strVal _, .strVal _ => true
  | .listVal _, .listVal _ => true
  | _, _ => false

/-- The state of an android module that the mutator context code reads and
writes: its common properties, its optional variable-properties struct
(`variableProperties`, an association list from field path to value), and
the variation bookkeeping of the blueprint layer (ordered `(axis, value)`
pairs plus the local-variant marker). -/
structure ModuleBase where
  commonProperties : CommonProperties := {}
  variableProperties : Option (List (String × PropValue)) := none
  variations : List (String × String) := []
  isLocal : Bool := false
  deriving Repr, DecidableEq

/-- Errors produced by the external proptools property-merge helpers.
`extendPropertyError` carries the offending field path, mirroring
`proptools.ExtendPropertyError`; `otherError` is any other merge error. -/
inductive PropToolsError where
  | extendPropertyError (property : String) (msg : String)
  | otherError (msg : String)
  deriving Repr, DecidableEq

/- ### Mutator registration (`registerMutatorsContext`, `registerMutators`) -/

/-- What kind of function a registered `mutator` record holds.
`bottomUpWrapped` is the closure built by `registerMutatorsContext.BottomUp`,
which captures the value of `x.finalPhase` at registration time and passes it
to `bottomUpMutatorContextFactory` on every visit.  `bottomUpBlueprint` is a
raw blueprint bottom-up mutator registered unwrapped by `BottomUpBlueprint`.
`topDownWrapped` is the closure built by `TopDown`, which captures nothing. -/
inductive MutatorKind where
  | bottomUpWrapped (finalPhase : Bool)
  | bottomUpBlueprint
  | topDownWrapped
  deriving Repr, DecidableEq

/-- The `mutator` record appended to `registerMutatorsContext.mutators`:
its registered name, the kind of wrapped function, and the parallel flag set
by `MutatorHandle.Parallel`. -/
structure mutator where
  name : String
  kind : MutatorKind
  parallel : Bool := false
  deriving Repr, DecidableEq

/-- Whether the registered function enforces the final-phase split ban: true
exactly when it is a `BottomUp` wrapper that captured `finalPhase = true`.
`BottomUpBlueprint` mutators run on the raw blueprint context and
`TopDown` wrappers build a context with no `finalPhase` field, so neither
carries the flag. -/
def mutator.carriesFinalPhaseFlag : mutator → Bool
  | { kind := .bottomUpWrapped fp, .. } => fp
  | _ => false

/-- The `registerMutatorsContext` struct: the ordered list of registered
mutators and the `finalPhase` flag that `registerMutators` sets before
registering the FinalDeps functions. -/
structure registerMutatorsContext where
  mutators : List mutator := []
  finalPhase : Bool := false
  deriving Repr, DecidableEq

/-- `registerMutatorsContext.BottomUp` appends a wrapped bottom-up mutator
whose closure captures the current value of `x.finalPhase`.  The `parallel`
argument records whether `.Parallel()` is chained on the returned handle. -/
def registerMutatorsContext.BottomUp (x : registerMutatorsContext) (name : String)
    (parallel : Bool) : registerMutatorsContext :=
  { x with mutators := x.mutators ++ [{ name := name, kind := .bottomUpWrapped x.finalPhase, parallel := parallel }] }

/-- `registerMutatorsContext.BottomUpBlueprint` appends a raw blueprint
bottom-up mutator, with no wrapping and no capture of `finalPhase`. -/
def registerMutatorsContext.BottomUpBlueprint (x : registerMutatorsContext) (name : String)
    (parallel : Bool) : registerMutatorsContext :=
  { x with mutators := x.mutators ++ [{ name := name, kind := .bottomUpBlueprint, parallel := parallel }] }

/-- `registerMutatorsContext.TopDown` appends a wrapped top-down mutator;
the wrapper captures nothing from the registration context. -/
def registerMutatorsContext.TopDown (x : registerMutatorsContext) (name : String)
    (parallel : Bool) : registerMutatorsContext :=
  { x with mutators := x.mutators ++ [{ name := name, kind := .topDownWrapped, parallel := parallel }] }

/-- One call a `RegisterMutatorFunc` can make through the
`RegisterMutatorsContext` interface, which exposes exactly the three
registration methods `BottomUp`, `BottomUpBlueprint` and `TopDown` (each
optionally chained with `.Parallel()` on the returned handle). -/
inductive RegisterAction where
  | bottomUp (name : String) (parallel : Bool)
  | bottomUpBlueprint (name : String) (parallel : Bool)
  | topDown (name : String) (parallel : Bool)
  deriving Repr, DecidableEq

/-- A `RegisterMutatorFunc` is a function over the `RegisterMutatorsContext`
interface; since that interface only exposes the three registration methods,
such a function is the sequence of registration calls it makes. -/
abbrev RegisterMutatorFunc := List RegisterAction

/-- Dispatch one registration call to the corresponding context method. -/
def applyAction (c : registerMutatorsContext) : RegisterAction → registerMutatorsContext
  | .bottomUp name par => c.BottomUp name par
  | .bottomUpBlueprint name par => c.BottomUpBlueprint name par
  | .topDown name par => c.TopDown name par

/-- Run one `RegisterMutatorFunc`: perform its registration calls in order. -/
def applyRegisterMutatorFunc (c : registerMutatorsContext) (f : RegisterMutatorFunc) :
    registerMutatorsContext :=
  f.foldl applyAction c

/-- The `register` closure inside `registerMutators`: run each function of
the list on the shared context, in order. -/
def register (funcs : List RegisterMutatorFunc) (c : registerMutatorsContext) :
    registerMutatorsContext :=
  funcs.foldl applyRegisterMutatorFunc c

/-- `registerArchMutator` registers the three built-in variant-splitting
mutators: `os` (blueprint, parallel), `image` (wrapped, parallel), `arch`
(blueprint, parallel), in that order. -/
def registerArchMutator : RegisterMutatorFunc :=
  [.bottomUpBlueprint "os" true, .bottomUp "image" true, .bottomUpBlueprint "arch" true]

/-- The package-level `preDeps` list before any `PreDepsMutators` call:
it holds exactly `registerArchMutator`. -/
def preDeps : List RegisterMutatorFunc := [registerArchMutator]

/-- `PreDepsMutators` appends a function to the `preDeps` list. -/
def PreDepsMutators (f : RegisterMutatorFunc) (l : List RegisterMutatorFunc) :
    List RegisterMutatorFunc :=
  l ++ [f]

/-- `registerMutators`: starting from an empty context, register the PreArch
functions, then the PreDeps functions, then the built-in `deps` bottom-up
mutator (parallel), then the PostDeps functions; then set `finalPhase` and
register the FinalDeps functions.  Returns the final ordered mutator list. -/
def registerMutators (preArch preDepsArg postDeps finalDeps : List RegisterMutatorFunc) :
    List mutator :=
  let mctx : registerMutatorsContext := {}
  let mctx := register preArch mctx
  let mctx := register preDepsArg mctx
  let mctx := mctx.BottomUp "deps" true
  let mctx := register postDeps mctx
  let mctx := { mctx with finalPhase := true }
  let mctx := register finalDeps mctx
  mctx.mutators

/- ### Bottom-up mutator contexts and variant splitting -/

/-- The android `bottomUpMutatorContext`: the embedded blueprint context is
represented by the name of the running mutator (`MutatorName`) and the module
currently being visited; `finalPhase` is the value captured by the `BottomUp`
registration closure and passed through `bottomUpMutatorContextFactory`. -/
structure bottomUpMutatorContext where
  mutatorName : String
  module : ModuleBase
  finalPhase : Bool
  deriving Repr, DecidableEq

/-- `bottomUpMutatorContextFactory` builds the android context handed to a
wrapped bottom-up mutator, carrying the captured `finalPhase` value. -/
def bottomUpMutatorContextFactory (mutatorName : String) (a : ModuleBase)
    (finalPhase : Bool) : bottomUpMutatorContext :=
  { mutatorName := mutatorName, module := a, finalPhase := finalPhase }

/-- Modelled from the spec: the blueprint `CreateVariations` call (the
blueprint library is outside the source unit under study) produces one child
variant per entry of `names`, in the same order, each inheriting the parent
variation list plus a new `(axis-for-this-mutator, name)` pair. -/
def bpCreateVariations (axis : String) (parent : ModuleBase) (names : List String) :
    List ModuleBase :=
  names.map fun n => { parent with variations := parent.variations ++ [(axis, n)] }

/-- Modelled from the spec: identical to `bpCreateVariations` except the
children are marked local, excluding them from default dependency matching. -/
def bpCreateLocalVariations (axis : String) (parent : ModuleBase) (names : List String) :
    List ModuleBase :=
  names.map fun n =>
    { parent with variations := parent.variations ++ [(axis, n)], isLocal := true }

/-- The debug bookkeeping the android wrapper performs on each created
module: append the mutator name to `DebugMutators` and the variation name
applied to this module to `DebugVariations`. -/
def appendDebugInfo (mutatorName variationName : String) (m : ModuleBase) : ModuleBase :=
  { m with commonProperties :=
      { m.commonProperties with
        DebugMutators := m.commonProperties.DebugMutators ++ [mutatorName],
        DebugVariations := m.commonProperties.DebugVariations ++ [variationName] } }

/-- `bottomUpMutatorContext.CreateVariations`: in the final phase the call is
a fatal abort (a Go panic, embedded as `Except.error`); otherwise it forwards
to the blueprint split and records the debug history on each new module, the
i-th module with the i-th variation name. -/
def bottomUpMutatorContext.CreateVariations (b : bottomUpMutatorContext)
    (variations : List String) : Except String (List ModuleBase) :=
  if b.finalPhase then
    .error "CreateVariations not allowed in FinalDepsMutators"
  else
    .ok (List.zipWith (appendDebugInfo b.mutatorName) variations
      (bpCreateVariations b.mutatorName b.module variations))

/-- `bottomUpMutatorContext.CreateLocalVariations`: same shape as
`CreateVariations` but forwarding to the local blueprint split. -/
def bottomUpMutatorContext.CreateLocalVariations (b : bottomUpMutatorContext)
    (variations : List String) : Except String (List ModuleBase) :=
  if b.finalPhase then
    .error "CreateLocalVariations not allowed in FinalDepsMutators"
  else
    .ok (List.zipWith (appendDebugInfo b.mutatorName) variations
      (bpCreateLocalVariations b.mutatorName b.module variations))

/-- A sample non-final-phase context used by concrete witnesses. -/
def sampleCtx : bottomUpMutatorContext :=
  { mutatorName := "arch", module := {}, finalPhase := false }

/-- The mutator record that a single registration call produces when the
context flag is `fp`. -/
def mutatorOfAction (fp : Bool) : RegisterAction → mutator
  | .bottomUp name par => { name := name, kind := .bottomUpWrapped fp, parallel := par }
  | .bottomUpBlueprint name par => { name := name, kind := .bottomUpBlueprint, parallel := par }
  | .topDown name par => { name := name, kind := .topDownWrapped, parallel := par }

/-- The mutators a phase list of registration functions contributes when run
with context flag `fp`, in registration order. -/
def phaseMutators (fp : Bool) (funcs : List RegisterMutatorFunc) : List mutator :=
  (funcs.foldl (fun acc f => acc ++ f) []).map (mutatorOfAction fp)

/- ### Module wrappers and the built-in deps mutators -/

/-- A module as the blueprint layer hands it to a mutator: either an android
module (one whose type assertion to the android Module interface succeeds,
represented by its base state) or some other blueprint module. -/
inductive BlueprintModule where
  | androidModule (m : ModuleBase)
  | nonAndroid (name : String)
  deriving Repr, DecidableEq

/-- The closure built by `registerMutatorsContext.BottomUp` around the
android mutator function (represented by its effect on the state of the
visited module): it runs the function only when the type assertion to the
android Module interface succeeds, and does nothing otherwise. -/
def bottomUpWrapper (m : ModuleBase → ModuleBase) (bm : BlueprintModule) : BlueprintModule :=
  match bm with
  | .androidModule a => .androidModule (m a)
  | .nonAndroid n => .nonAndroid n

/-- The closure built by `registerMutatorsContext.TopDown`: the same type
assertion guard as the bottom-up wrapper. -/
def topDownWrapper (m : ModuleBase → ModuleBase) (bm : BlueprintModule) : BlueprintModule :=
  match bm with
  | .androidModule a => .androidModule (m a)
  | .nonAndroid n => .nonAndroid n

/-- A module as the deps mutators see it: its `Enabled` state and its
declared `DepsMutator` / `ComponentDepsMutator` behaviors, each represented
by its effect on the dependency list of the visited module. -/
structure DepsModule where
  Enabled : Bool
  DepsMutator : List String → List String
  ComponentDepsMutator : List String → List String

/-- The built-in `deps` mutator: it calls the module `DepsMutator` exactly
when the module is enabled. -/
def depsMutator (m : DepsModule) (deps : List String) : List String :=
  if m.Enabled then m.DepsMutator deps else deps

/-- The built-in `component-deps` mutator: it calls the module
`ComponentDepsMutator` exactly when the module is enabled. -/
def componentDepsMutator (m : DepsModule) (deps : List String) : List String :=
  if m.Enabled then m.ComponentDepsMutator deps else deps

/-- A sample enabled module used by concrete witnesses. -/
def sampleEnabledModule : DepsModule :=
  { Enabled := true, DepsMutator := fun ds => ds ++ ["libc"],
    ComponentDepsMutator := fun ds => ds ++ ["libc.so"] }

/-- A sample disabled module used by concrete witnesses. -/
def sampleDisabledModule : DepsModule :=
  { Enabled := false, DepsMutator := fun ds => ds ++ ["libc"],
    ComponentDepsMutator := fun ds => ds ++ ["libc.so"] }

/- ### Top-down mutator context: property merging and CreateModule -/

/-- The android `topDownMutatorContext` state relevant to property merging:
the visited module and the unit-local errors recorded by `PropertyErrorf`,
each a pair of offending field path and message. -/
structure topDownMutatorContext where
  module : ModuleBase
  propertyErrors : List (String × String) := []
  deriving Repr, DecidableEq

/-- `topDownMutatorContext.AppendProperties`: the proptools merge helper is
external, so each property struct passed in is represented by the outcome of
its merge into the customizable properties of the module.  An
ExtendPropertyError outcome is recorded through `PropertyErrorf` against the
visited unit and the loop continues with the next property struct; any other
error is a Go panic, embedded as `Except.error`. -/
def topDownMutatorContext.AppendProperties :
    topDownMutatorContext → List (Option PropToolsError) →
      Except PropToolsError topDownMutatorContext
  | t, [] => Except.ok t
  | t, none :: rest => topDownMutatorContext.AppendProperties t rest
  | t, some (.extendPropertyError p msg) :: rest =>
      topDownMutatorContext.AppendProperties
        { t with propertyErrors := t.propertyErrors ++ [(p, msg)] } rest
  | _, some (.otherError msg) :: _ => Except.error (.otherError msg)

/-- `topDownMutatorContext.PrependProperties`: identical error discipline to
`AppendProperties`, calling the prepend variant of the merge helper. -/
def topDownMutatorContext.PrependProperties :
    topDownMutatorContext → List (Option PropToolsError) →
      Except PropToolsError topDownMutatorContext
  | t, [] => Except.ok t
  | t, none :: rest => topDownMutatorContext.PrependProperties t rest
  | t, some (.extendPropertyError p msg) :: rest =>
      topDownMutatorContext.PrependProperties
        { t with propertyErrors := t.propertyErrors ++ [(p, msg)] } rest
  | _, some (.otherError msg) :: _ => Except.error (.otherError msg)

/-- The field-scoped errors a list of merge outcomes contributes. -/
def extendErrorsOf (props : List (Option PropToolsError)) : List (String × String) :=
  props.filterMap fun e =>
    match e with
    | some (.extendPropertyError p msg) => some (p, msg)
    | _ => none

/-- Modelled from the spec: `proptools.AppendMatchingProperties` merges the
fields of src into dst.  A field of src present in dst with a different
shape is a shape mismatch reported as an ExtendPropertyError naming the
field; a field present with the same shape keeps the dst value (the values
already on the new module win); a field of src absent from dst is copied
(the empty clone of src that `CreateModule` places in dst guarantees a
destination field exists, so no missing-property error occurs). -/
def AppendMatchingProperties : List (String × PropValue) → List (String × PropValue) →
    Except PropToolsError (List (String × PropValue))
  | dst, [] => Except.ok dst
  | dst, (k, v) :: rest =>
    match dst.lookup k with
    | some w =>
      if w.sameShape v then AppendMatchingProperties dst rest
      else Except.error (.extendPropertyError k "properties have different types")
    | none => AppendMatchingProperties (dst ++ [(k, v)]) rest

/-- `topDownMutatorContext.CreateModule`: the new module is produced by the
blueprint factory with the inherited common properties and the caller
property structs already applied (argument `module`); when both the
requesting module and the new module carry a variable-properties struct, the
requester struct is merged into the new module struct; a merge error is a Go
panic, embedded as `Except.error`. -/
def topDownMutatorContext.CreateModule (t : topDownMutatorContext) (module : ModuleBase) :
    Except PropToolsError ModuleBase :=
  match t.module.variableProperties, module.variableProperties with
  | some src, some dst =>
    match AppendMatchingProperties dst src with
    | .ok merged => .ok { module with variableProperties := some merged }
    | .error e => .error e
  | _, _ => .ok module

/- ### Pass-end reverse-dependency flushing -/

/-- A sample requesting context whose module has variable properties with an
overlapping field `a` and a requester-only field `b`. -/
def sampleRequester : topDownMutatorContext :=
  { module := { variableProperties := some [("a", PropValue.intVal 1), ("b", PropValue.strVal "s")] } }

/-- A sample newly created module whose variable properties set field `a`. -/
def sampleCreated : ModuleBase :=
  { variableProperties := some [("a", PropValue.intVal 2)] }

/-- A sample requesting context whose variable property `a` is an int. -/
def sampleMismatchRequester : topDownMutatorContext :=
  { module := { variableProperties := some [("a", PropValue.intVal 1)] } }

/-- A sample newly created module whose variable property `a` is a string,
clashing in shape with `sampleMismatchRequester`. -/
def sampleMismatchCreated : ModuleBase :=
  { variableProperties := some [("a", PropValue.strVal "x")] }

/-- A reverse-dependency request queued by `AddReverseDependency`: the
destination module (named by the `name` argument) will receive a dependency
on the source module (the `module` argument, normally the visiting module). -/
structure ReverseDep where
  destination : String
  source : String
  deriving Repr, DecidableEq

/-- Modelled from the spec and the `AddReverseDependency` doc contract: all
reverse dependencies for a destination module are collected until the end of
the mutator pass, sorted by source module name, and then appended to the
destination module dependency list.  The collection and flush live in the
blueprint library, outside the source unit under study. -/
def flushReverseDeps (queued : List ReverseDep) (destination : String)
    (deps : List String) : List String :=
  deps ++ (((queued.filter fun r => r.destination == destination).map
    ReverseDep.source).insertionSort (· ≤ ·))

theorem applyAction_mutators (c : registerMutatorsContext) (a : RegisterAction) :
    (applyAction c a).mutators = c.mutators ++ [mutatorOfAction c.finalPhase a] := by
  cases a <;> rfl

theorem applyAction_finalPhase (c : registerMutatorsContext) (a : RegisterAction) :
    (applyAction c a).finalPhase = c.finalPhase := by
  cases a <;> rfl

theorem applyRegisterMutatorFunc_eq (f : RegisterMutatorFunc) (c : registerMutatorsContext) :
    applyRegisterMutatorFunc c f =
      { c with mutators := c.mutators ++ f.map (mutatorOfAction c.finalPhase) } := by
  induction f generalizing c with
  | nil => simp [applyRegisterMutatorFunc]
  | cons a rest ih =>
    simp only [applyRegisterMutatorFunc, List.foldl_cons]
    have h := ih (applyAction c a)
    simp only [applyRegisterMutatorFunc] at h
    rw [h, applyAction_mutators, applyAction_finalPhase]
    simp [List.append_assoc]

theorem applyRegisterMutatorFunc_mutators (f : RegisterMutatorFunc) (c : registerMutatorsContext) :
    (applyRegisterMutatorFunc c f).mutators =
      c.mutators ++ f.map (mutatorOfAction c.finalPhase) := by
  rw [applyRegisterMutatorFunc_eq]

theorem applyRegisterMutatorFunc_finalPhase (f : RegisterMutatorFunc) (c : registerMutatorsContext) :
    (applyRegisterMutatorFunc c f).finalPhase = c.finalPhase := by
  rw [applyRegisterMutatorFunc_eq]

theorem foldl_append_eq (funcs : List RegisterMutatorFunc) (acc : List RegisterAction) :
    funcs.foldl (fun acc f => acc ++ f) acc = acc ++ funcs.foldl (fun acc f => acc ++ f) [] := by
  induction funcs generalizing acc with
  | nil => simp
  | cons f rest ih =>
    simp only [List.foldl_cons, List.nil_append]
    rw [ih (acc ++ f), ih f]
    simp [List.append_assoc]

theorem register_eq (funcs : List RegisterMutatorFunc) (c : registerMutatorsContext) :
    register funcs c =
      { c with mutators := c.mutators ++ phaseMutators c.finalPhase funcs } := by
  induction funcs generalizing c with
  | nil => simp [register, phaseMutators]
  | cons f rest ih =>
    simp only [register, List.foldl_cons]
    have h := ih (applyRegisterMutatorFunc c f)
    simp only [register] at h
    rw [h, applyRegisterMutatorFunc_mutators, applyRegisterMutatorFunc_finalPhase]
    simp only [phaseMutators, List.foldl_cons, List.nil_append]
    rw [foldl_append_eq rest f]
    simp [List.append_assoc]

theorem register_finalPhase (funcs : List RegisterMutatorFunc) (c : registerMutatorsContext) :
    (register funcs c).finalPhase = c.finalPhase := by
  rw [register_eq]

theorem phaseMutators_cons (fp : Bool) (f : RegisterMutatorFunc)
    (rest : List RegisterMutatorFunc) :
    phaseMutators fp (f :: rest) = f.map (mutatorOfAction fp) ++ phaseMutators fp rest := by
  simp only [phaseMutators, List.foldl_cons, List.nil_append]
  rw [foldl_append_eq rest f, List.map_append]

/-- C2: registerMutators produces exactly the fixed phase order: the PreArch
mutators, then the built-in os, image and arch splitting mutators (registered
by registerArchMutator, the head of the preDeps list), then the remaining
PreDeps mutators, then the built-in deps mutator, then the PostDeps mutators,
then the FinalDeps mutators; each phase contributes its mutators in the
registration order of that phase list. -/
theorem registerMutators_phase_order
    (preArchFs preDepsFs postDepsFs finalDepsFs : List RegisterMutatorFunc) :
    registerMutators preArchFs (registerArchMutator :: preDepsFs) postDepsFs finalDepsFs =
      phaseMutators false preArchFs
        ++ [{ name := "os", kind := .bottomUpBlueprint, parallel := true },
            { name := "image", kind := .bottomUpWrapped false, parallel := true },
            { name := "arch", kind := .bottomUpBlueprint, parallel := true }]
        ++ phaseMutators false preDepsFs
        ++ [{ name := "deps", kind := .bottomUpWrapped false, parallel := true }]
        ++ phaseMutators false postDepsFs
        ++ phaseMutators true finalDepsFs := by
  simp only [registerMutators, register_eq, registerMutatorsContext.BottomUp,
    phaseMutators_cons, registerArchMutator, mutatorOfAction, List.map_cons, List.map_nil]
  simp [List.append_assoc]

/-- C3 counterexample: mutators registered after the context enters the final
phase through BottomUpBlueprint and TopDown do not carry the final-phase
flag.  Registering one blueprint bottom-up mutator and one top-down mutator
in the FinalDeps phase yields mutator records whose carriesFinalPhaseFlag is
false, contradicting the claim that all three registration entry points mark
their mutators with the flag. -/
theorem finalDeps_blueprint_topDown_lack_flag :
    (registerMutators [] [] []
        [[RegisterAction.bottomUpBlueprint "late" false],
         [RegisterAction.topDown "lateTop" false]]) =
      [{ name := "deps", kind := .bottomUpWrapped false, parallel := true },
       { name := "late", kind := .bottomUpBlueprint, parallel := false },
       { name := "lateTop", kind := .topDownWrapped, parallel := false }] ∧
    mutator.carriesFinalPhaseFlag
        { name := "late", kind := .bottomUpBlueprint, parallel := false } = false ∧
    mutator.carriesFinalPhaseFlag
        { name := "lateTop", kind := .topDownWrapped, parallel := false } = false := by
  refine ⟨?_, rfl, rfl⟩
  rfl

/-- C3 amended: after the registration context enters the final phase, a
mutator registered through BottomUp captures the flag and therefore carries
it, while mutators registered through BottomUpBlueprint or TopDown never
carry the flag (their functions run without the android bottom-up context
that enforces the split ban). -/
theorem final_phase_flag_only_bottomUp (c : registerMutatorsContext) (name : String)
    (par : Bool) (h : c.finalPhase = true) :
    (c.BottomUp name par).mutators =
      c.mutators ++ [{ name := name, kind := .bottomUpWrapped true, parallel := par }] ∧
    mutator.carriesFinalPhaseFlag
      { name := name, kind := .bottomUpWrapped true, parallel := par } = true ∧
    (c.BottomUpBlueprint name par).mutators =
      c.mutators ++ [{ name := name, kind := .bottomUpBlueprint, parallel := par }] ∧
    mutator.carriesFinalPhaseFlag
      { name := name, kind := .bottomUpBlueprint, parallel := par } = false ∧
    (c.TopDown name par).mutators =
      c.mutators ++ [{ name := name, kind := .topDownWrapped, parallel := par }] ∧
    mutator.carriesFinalPhaseFlag
      { name := name, kind := .topDownWrapped, parallel := par } = false := by
  refine ⟨?_, rfl, rfl, rfl, rfl, rfl⟩
  simp [registerMutatorsContext.BottomUp, h]

theorem CreateVariations_eq (b : bottomUpMutatorContext) (names : List String)
    (h : b.finalPhase = false) :
    b.CreateVariations names =
      .ok (names.map fun n => appendDebugInfo b.mutatorName n
        { b.module with variations := b.module.variations ++ [(b.mutatorName, n)] }) := by
  simp only [bottomUpMutatorContext.CreateVariations, h, Bool.false_eq_true, if_false,
    bpCreateVariations]
  rw [List.zipWith_map_right, List.zipWith_same]

theorem CreateLocalVariations_eq (b : bottomUpMutatorContext) (names : List String)
    (h : b.finalPhase = false) :
    b.CreateLocalVariations names =
      .ok (names.map fun n => appendDebugInfo b.mutatorName n
        { b.module with variations := b.module.variations ++ [(b.mutatorName, n)], isLocal := true }) := by
  simp only [bottomUpMutatorContext.CreateLocalVariations, h, Bool.false_eq_true, if_false,
    bpCreateLocalVariations]
  rw [List.zipWith_map_right, List.zipWith_same]

/-- C1: a call to CreateVariations or CreateLocalVariations on a context
built for a mutator that captured the final-phase flag (every android
bottom-up mutator registered after the pipeline entered FinalDeps) always
fails fatally with the IllegalSplit panic message and never returns a
variant list. -/
theorem create_variations_final_phase_fatal (mutatorName : String) (a : ModuleBase)
    (names : List String) :
    (bottomUpMutatorContextFactory mutatorName a true).CreateVariations names =
      .error "CreateVariations not allowed in FinalDepsMutators" ∧
    (bottomUpMutatorContextFactory mutatorName a true).CreateLocalVariations names =
      .error "CreateLocalVariations not allowed in FinalDepsMutators" :=
  ⟨rfl, rfl⟩

/-- C4: outside the final phase, CreateVariations and CreateLocalVariations
return exactly one new module per entry of names and in the same order as
names: the result is the image of a map over names, whose n-entry is the
child carrying the variation pair built from n. -/
theorem create_variations_one_module_per_name (b : bottomUpMutatorContext)
    (names : List String) (h : b.finalPhase = false) :
    b.CreateVariations names =
      .ok (names.map fun n => appendDebugInfo b.mutatorName n
        { b.module with variations := b.module.variations ++ [(b.mutatorName, n)] }) ∧
    b.CreateLocalVariations names =
      .ok (names.map fun n => appendDebugInfo b.mutatorName n
        { b.module with variations := b.module.variations ++ [(b.mutatorName, n)], isLocal := true }) :=
  ⟨CreateVariations_eq b names h, CreateLocalVariations_eq b names h⟩

/-- Witness for C4 at a concrete context and concrete variation names. -/
theorem create_variations_one_module_per_name_witness :
    sampleCtx.finalPhase = false ∧
    sampleCtx.CreateVariations ["arm", "x86"] =
      .ok (["arm", "x86"].map fun n => appendDebugInfo sampleCtx.mutatorName n
        { sampleCtx.module with
          variations := sampleCtx.module.variations ++ [(sampleCtx.mutatorName, n)] }) :=
  ⟨rfl, (create_variations_one_module_per_name sampleCtx ["arm", "x86"] rfl).1⟩

/-- C5: every module returned by a successful CreateVariations or
CreateLocalVariations call has the running mutator name appended to its
DebugMutators history and the variation value applied to it appended to its
DebugVariations history; the i-th child records the i-th requested name, and
the two histories stay in step (their lengths agree on the child whenever
they agreed on the parent). -/
theorem create_variations_debug_history (b : bottomUpMutatorContext)
    (names : List String) (l : List ModuleBase)
    (h : b.CreateVariations names = .ok l ∨ b.CreateLocalVariations names = .ok l) :
    l.length = names.length ∧
    ∀ i (hi : i < l.length) (hin : i < names.length),
      (l.get ⟨i, hi⟩).commonProperties.DebugMutators =
        b.module.commonProperties.DebugMutators ++ [b.mutatorName] ∧
      (l.get ⟨i, hi⟩).commonProperties.DebugVariations =
        b.module.commonProperties.DebugVariations ++ [names.get ⟨i, hin⟩] ∧
      ((l.get ⟨i, hi⟩).commonProperties.DebugMutators.length =
          (l.get ⟨i, hi⟩).commonProperties.DebugVariations.length ↔
        b.module.commonProperties.DebugMutators.length =
          b.module.commonProperties.DebugVariations.length) := by
  have hfp : b.finalPhase = false := by
    cases hb : b.finalPhase
    · rfl
    · rcases h with h | h <;>
        simp [bottomUpMutatorContext.CreateVariations,
          bottomUpMutatorContext.CreateLocalVariations, hb] at h
  have hl : l = names.map (fun n => appendDebugInfo b.mutatorName n
        { b.module with variations := b.module.variations ++ [(b.mutatorName, n)] }) ∨
      l = names.map (fun n => appendDebugInfo b.mutatorName n
        { b.module with variations := b.module.variations ++ [(b.mutatorName, n)], isLocal := true }) := by
    rcases h with h | h
    · left
      rw [CreateVariations_eq b names hfp] at h
      exact (Except.ok.inj h).symm
    · right
      rw [CreateLocalVariations_eq b names hfp] at h
      exact (Except.ok.inj h).symm
  rcases hl with hl | hl <;> subst hl <;>
    refine ⟨List.length_map _ _, fun i hi hin => ?_⟩ <;>
    · simp [List.get_eq_getElem, List.getElem_map, appendDebugInfo]

/-- Witness for C5 at a concrete successful split. -/
theorem create_variations_debug_history_witness :
    (sampleCtx.CreateVariations ["arm", "x86"] =
        .ok (["arm", "x86"].map fun n => appendDebugInfo "arch" n
          { sampleCtx.module with variations := [("arch", n)] }) ∨
      sampleCtx.CreateLocalVariations ["arm", "x86"] =
        .ok (["arm", "x86"].map fun n => appendDebugInfo "arch" n
          { sampleCtx.module with variations := [("arch", n)] })) ∧
    (["arm", "x86"].map fun n => appendDebugInfo "arch" n
        { sampleCtx.module with variations := [("arch", n)] }).length = 2 := by
  have hok : sampleCtx.CreateVariations ["arm", "x86"] =
      .ok (["arm", "x86"].map fun n => appendDebugInfo "arch" n
        { sampleCtx.module with variations := [("arch", n)] }) := by rfl
  have h := create_variations_debug_history sampleCtx ["arm", "x86"] _ (Or.inl hok)
  exact ⟨Or.inl hok, h.1⟩

/-- Witness for the amended C3 theorem at a concrete final-phase context. -/
theorem final_phase_flag_only_bottomUp_witness :
    (registerMutatorsContext.BottomUp { mutators := [], finalPhase := true } "m" false).mutators =
      [{ name := "m", kind := .bottomUpWrapped true, parallel := false }] ∧
    mutator.carriesFinalPhaseFlag
      { name := "m", kind := .bottomUpWrapped true, parallel := false } = true := by
  have h := final_phase_flag_only_bottomUp
    { mutators := [], finalPhase := true } "m" false rfl
  exact ⟨by simpa using h.1, h.2.1⟩

/-- C9: the wrappers installed by BottomUp and TopDown invoke the wrapped
mutator function only on modules whose type assertion to the android Module
interface succeeds; any other module is skipped and left entirely
unchanged. -/
theorem wrapper_skips_non_android_modules (m : ModuleBase → ModuleBase) :
    (∀ a, bottomUpWrapper m (.androidModule a) = .androidModule (m a)) ∧
    (∀ n, bottomUpWrapper m (.nonAndroid n) = .nonAndroid n) ∧
    (∀ a, topDownWrapper m (.androidModule a) = .androidModule (m a)) ∧
    (∀ n, topDownWrapper m (.nonAndroid n) = .nonAndroid n) :=
  ⟨fun _ => rfl, fun _ => rfl, fun _ => rfl, fun _ => rfl⟩

/-- C10: the built-in deps and component-deps mutators invoke the visited
module DepsMutator (resp. ComponentDepsMutator) exactly when the module
Enabled check is true; a disabled module has no dependencies added by either
pass. -/
theorem deps_mutators_enabled_guard (m : DepsModule) (deps : List String) :
    (m.Enabled = true → depsMutator m deps = m.DepsMutator deps ∧
      componentDepsMutator m deps = m.ComponentDepsMutator deps) ∧
    (m.Enabled = false → depsMutator m deps = deps ∧
      componentDepsMutator m deps = deps) := by
  constructor <;> intro h <;> simp [depsMutator, componentDepsMutator, h]

/-- Witness for C10: an enabled and a disabled concrete module. -/
theorem deps_mutators_enabled_guard_witness :
    sampleEnabledModule.Enabled = true ∧
    depsMutator sampleEnabledModule ["a"] = sampleEnabledModule.DepsMutator ["a"] ∧
    sampleDisabledModule.Enabled = false ∧
    depsMutator sampleDisabledModule ["a"] = ["a"] :=
  ⟨rfl, ((deps_mutators_enabled_guard sampleEnabledModule ["a"]).1 rfl).1,
   rfl, ((deps_mutators_enabled_guard sampleDisabledModule ["a"]).2 rfl).1⟩

theorem lookup_append (l₁ l₂ : List (String × PropValue)) (k : String) :
    (l₁ ++ l₂).lookup k = ((l₁.lookup k).or (l₂.lookup k)) := by
  induction l₁ with
  | nil => simp
  | cons p rest ih =>
    cases p with
    | mk k₁ v =>
      by_cases h : k = k₁
      · subst h
        simp [List.lookup]
      · have hb : (k == k₁) = false := beq_eq_false_iff_ne.mpr h
        simp [List.lookup, hb, ih]

theorem AppendMatchingProperties_lookup (src : List (String × PropValue)) :
    ∀ dst out, AppendMatchingProperties dst src = .ok out →
      ∀ k, out.lookup k = ((dst.lookup k).or (src.lookup k)) := by
  induction src with
  | nil =>
    intro dst out h k
    simp only [AppendMatchingProperties] at h
    cases h
    simp
  | cons p rest ih =>
    intro dst out h k
    cases p with
    | mk k₁ v =>
      cases hdk : dst.lookup k₁ with
      | some w =>
        simp only [AppendMatchingProperties, hdk] at h
        by_cases hs : w.sameShape v
        · rw [if_pos hs] at h
          rw [ih dst out h k]
          by_cases hk : k = k₁
          · subst hk
            rw [hdk]
            simp [List.lookup]
          · have hb : (k == k₁) = false := beq_eq_false_iff_ne.mpr hk
            simp [List.lookup, hb]
        · rw [if_neg hs] at h
          exact absurd h (by simp)
      | none =>
        simp only [AppendMatchingProperties, hdk] at h
        rw [ih (dst ++ [(k₁, v)]) out h k, lookup_append]
        by_cases hk : k = k₁
        · subst hk
          rw [hdk]
          simp [List.lookup]
        · have hb : (k == k₁) = false := beq_eq_false_iff_ne.mpr hk
          simp [List.lookup, hb, Option.or_assoc]

/-- C7: when both the requesting module and the newly created module carry a
variable-properties struct and the merge succeeds, CreateModule returns the
new module with the merged struct, in which a field already present on the
new module keeps its value and a field present only on the requester is
copied over; when either struct is missing, the new module is returned
unchanged and no variable-property merge occurs. -/
theorem createModule_variable_props_merge (t : topDownMutatorContext)
    (module : ModuleBase) :
    (t.module.variableProperties = none ∨ module.variableProperties = none →
      t.CreateModule module = .ok module) ∧
    (∀ src dst merged, t.module.variableProperties = some src →
      module.variableProperties = some dst →
      AppendMatchingProperties dst src = .ok merged →
      t.CreateModule module = .ok { module with variableProperties := some merged } ∧
      ∀ k, merged.lookup k = ((dst.lookup k).or (src.lookup k))) := by
  constructor
  · intro h
    cases hv : t.module.variableProperties <;> cases hw : module.variableProperties <;>
      rcases h with h | h <;> simp_all [topDownMutatorContext.CreateModule]
  · intro src dst merged hsrc hdst hmerge
    refine ⟨?_, AppendMatchingProperties_lookup src dst merged hmerge⟩
    simp [topDownMutatorContext.CreateModule, hsrc, hdst, hmerge]

/-- Witness for C7: a concrete requester and new module with overlapping and
disjoint variable-property fields. -/
theorem createModule_variable_props_merge_witness :
    sampleRequester.CreateModule sampleCreated =
      .ok { sampleCreated with variableProperties := some [("a", PropValue.intVal 2), ("b", PropValue.strVal "s")] } := by
  have h := (createModule_variable_props_merge sampleRequester sampleCreated).2
    [("a", PropValue.intVal 1), ("b", PropValue.strVal "s")]
    [("a", PropValue.intVal 2)]
    [("a", PropValue.intVal 2), ("b", PropValue.strVal "s")]
    rfl rfl (by rfl)
  exact h.1

/-- C6 counterexample: a shape mismatch while CreateModule merges the
requester variable properties into the new module is not reported as a
field-scoped unit-local error; it escapes as a fatal panic (the error case),
contradicting the claim that every merge failure in AppendProperties,
PrependProperties and CreateModule is attached to the offending unit and
that none aborts the pipeline. -/
theorem createModule_merge_failure_is_fatal :
    sampleMismatchRequester.CreateModule sampleMismatchCreated =
      .error (.extendPropertyError "a" "properties have different types") := by rfl

theorem AppendProperties_otherError_fatal (props₁ : List (Option PropToolsError)) :
    ∀ (t : topDownMutatorContext) (msg : String) (props₂ : List (Option PropToolsError)),
      (∀ e ∈ props₁, (∃ p m, e = some (.extendPropertyError p m)) ∨ e = none) →
      topDownMutatorContext.AppendProperties t
        (props₁ ++ some (.otherError msg) :: props₂) = .error (.otherError msg) := by
  induction props₁ with
  | nil =>
    intro t msg props₂ _
    rfl
  | cons e rest ih =>
    intro t msg props₂ h
    rcases h e (List.mem_cons_self e rest) with ⟨p, m, rfl⟩ | rfl
    · show topDownMutatorContext.AppendProperties { t with propertyErrors := t.propertyErrors ++ [(p, m)] } (rest ++ some (.otherError msg) :: props₂) = _
      exact ih _ msg props₂ (fun e he => h e (List.mem_cons_of_mem _ he))
    · show topDownMutatorContext.AppendProperties t (rest ++ some (.otherError msg) :: props₂) = _
      exact ih t msg props₂ (fun e he => h e (List.mem_cons_of_mem _ he))

theorem PrependProperties_otherError_fatal (props₁ : List (Option PropToolsError)) :
    ∀ (t : topDownMutatorContext) (msg : String) (props₂ : List (Option PropToolsError)),
      (∀ e ∈ props₁, (∃ p m, e = some (.extendPropertyError p m)) ∨ e = none) →
      topDownMutatorContext.PrependProperties t
        (props₁ ++ some (.otherError msg) :: props₂) = .error (.otherError msg) := by
  induction props₁ with
  | nil =>
    intro t msg props₂ _
    rfl
  | cons e rest ih =>
    intro t msg props₂ h
    rcases h e (List.mem_cons_self e rest) with ⟨p, m, rfl⟩ | rfl
    · show topDownMutatorContext.PrependProperties { t with propertyErrors := t.propertyErrors ++ [(p, m)] } (rest ++ some (.otherError msg) :: props₂) = _
      exact ih _ msg props₂ (fun e he => h e (List.mem_cons_of_mem _ he))
    · show topDownMutatorContext.PrependProperties t (rest ++ some (.otherError msg) :: props₂) = _
      exact ih t msg props₂ (fun e he => h e (List.mem_cons_of_mem _ he))

/-- C6 amended: in AppendProperties and PrependProperties every shape
mismatch (ExtendPropertyError) is recorded through PropertyErrorf as a
field-scoped error on the visited unit and the loop continues with the
remaining property structs, so no shape mismatch there aborts the pass; any
other merge error there aborts the call fatally at the first such outcome,
and every merge failure inside CreateModule (including a shape mismatch) is
a fatal panic as well. -/
theorem property_merge_error_discipline (t : topDownMutatorContext) (tm : ModuleBase)
    (props : List (Option PropToolsError))
    (h : ∀ e ∈ props, (∃ p msg, e = some (.extendPropertyError p msg)) ∨ e = none) :
    t.AppendProperties props =
      .ok { t with propertyErrors := t.propertyErrors ++ extendErrorsOf props } ∧
    t.PrependProperties props =
      .ok { t with propertyErrors := t.propertyErrors ++ extendErrorsOf props } ∧
    (∀ src dst e, t.module.variableProperties = some src →
      tm.variableProperties = some dst →
      AppendMatchingProperties dst src = .error e →
      t.CreateModule tm = .error e) ∧
    (∀ props₁ msg props₂,
      (∀ e ∈ props₁, (∃ p m, e = some (.extendPropertyError p m)) ∨ e = none) →
      t.AppendProperties (props₁ ++ some (.otherError msg) :: props₂) =
        .error (.otherError msg)) ∧
    (∀ props₁ msg props₂,
      (∀ e ∈ props₁, (∃ p m, e = some (.extendPropertyError p m)) ∨ e = none) →
      t.PrependProperties (props₁ ++ some (.otherError msg) :: props₂) =
        .error (.otherError msg)) := by
  refine ⟨?_, ?_, ?_, fun props₁ msg props₂ h₁ =>
    AppendProperties_otherError_fatal props₁ t msg props₂ h₁,
    fun props₁ msg props₂ h₁ =>
    PrependProperties_otherError_fatal props₁ t msg props₂ h₁⟩
  · induction props generalizing t with
    | nil =>
      show Except.ok t = _
      simp [extendErrorsOf]
    | cons e rest ih =>
      rcases h e (List.mem_cons_self e rest) with ⟨p, msg, rfl⟩ | rfl
      · show topDownMutatorContext.AppendProperties { t with propertyErrors := t.propertyErrors ++ [(p, msg)] } rest = _
        rw [ih _ (fun e he => h e (List.mem_cons_of_mem _ he))]
        simp [extendErrorsOf, List.append_assoc]
      · show topDownMutatorContext.AppendProperties t rest = _
        rw [ih t (fun e he => h e (List.mem_cons_of_mem _ he))]
        simp [extendErrorsOf]
  · induction props generalizing t with
    | nil =>
      show Except.ok t = _
      simp [extendErrorsOf]
    | cons e rest ih =>
      rcases h e (List.mem_cons_self e rest) with ⟨p, msg, rfl⟩ | rfl
      · show topDownMutatorContext.PrependProperties { t with propertyErrors := t.propertyErrors ++ [(p, msg)] } rest = _
        rw [ih _ (fun e he => h e (List.mem_cons_of_mem _ he))]
        simp [extendErrorsOf, List.append_assoc]
      · show topDownMutatorContext.PrependProperties t rest = _
        rw [ih t (fun e he => h e (List.mem_cons_of_mem _ he))]
        simp [extendErrorsOf]
  · intro src dst e hsrc hdst herr
    simp [topDownMutatorContext.CreateModule, hsrc, hdst, herr]

/-- Witness for the amended C6 theorem: two shape mismatches are recorded
field-scoped and the pass result is ok; the same mismatch in CreateModule is
fatal; and a non-shape-mismatch merge error in AppendProperties is fatal. -/
theorem property_merge_error_discipline_witness :
    topDownMutatorContext.AppendProperties sampleMismatchRequester
      [some (.extendPropertyError "f" "bad"), none, some (.extendPropertyError "g" "bad2")] =
      .ok { sampleMismatchRequester with propertyErrors := [("f", "bad"), ("g", "bad2")] } ∧
    sampleMismatchRequester.CreateModule sampleMismatchCreated =
      .error (.extendPropertyError "a" "properties have different types") ∧
    topDownMutatorContext.AppendProperties sampleMismatchRequester
      [some (.extendPropertyError "f" "bad"), some (.otherError "boom")] =
      .error (.otherError "boom") := by
  have h := property_merge_error_discipline sampleMismatchRequester sampleMismatchCreated
    [some (.extendPropertyError "f" "bad"), none, some (.extendPropertyError "g" "bad2")]
    (by
      intro e he
      simp only [List.mem_cons, List.not_mem_nil, or_false] at he
      rcases he with rfl | rfl | rfl
      · exact Or.inl ⟨"f", "bad", rfl⟩
      · exact Or.inr rfl
      · exact Or.inl ⟨"g", "bad2", rfl⟩)
  refine ⟨?_,
    h.2.2.1 [("a", PropValue.intVal 1)] [("a", PropValue.strVal "x")] _ rfl rfl (by rfl),
    h.2.2.2.1 [some (.extendPropertyError "f" "bad")] "boom" []
      (by
        intro e he
        simp only [List.mem_cons, List.not_mem_nil, or_false] at he
        rcases he with rfl
        exact Or.inl ⟨"f", "bad", rfl⟩)⟩
  rw [h.1]
  rfl

/-- C8: reverse dependencies queued against a destination during a pass are
appended to the destination dependency list at pass end in source-name
order: the flushed result does not depend on the order in which visits
queued the entries, the appended block is sorted by source name and is a
permutation of the queued sources for that destination, and the original
dependency list prefix is unchanged. -/
theorem reverse_deps_flush_sorted (q₁ q₂ : List ReverseDep) (destination : String)
    (deps : List String) (h : q₁.Perm q₂) :
    flushReverseDeps q₁ destination deps = flushReverseDeps q₂ destination deps ∧
    List.Sorted (· ≤ ·) ((flushReverseDeps q₁ destination deps).drop deps.length) ∧
    ((flushReverseDeps q₁ destination deps).drop deps.length).Perm
      ((q₁.filter fun r => r.destination == destination).map ReverseDep.source) ∧
    (flushReverseDeps q₁ destination deps).take deps.length = deps := by
  have hperm : ((q₁.filter fun r => r.destination == destination).map
      ReverseDep.source).Perm
      ((q₂.filter fun r => r.destination == destination).map ReverseDep.source) :=
    (h.filter _).map _
  refine ⟨?_, ?_, ?_, ?_⟩
  · unfold flushReverseDeps
    congr 1
    exact List.eq_of_perm_of_sorted
      (((List.perm_insertionSort _ _).trans hperm).trans
        (List.perm_insertionSort _ _).symm)
      (List.sorted_insertionSort _ _) (List.sorted_insertionSort _ _)
  · unfold flushReverseDeps
    rw [List.drop_left]
    exact List.sorted_insertionSort _ _
  · unfold flushReverseDeps
    rw [List.drop_left]
    exact List.perm_insertionSort _ _
  · unfold flushReverseDeps
    rw [List.take_left]

/-- Witness for C8, the spec example: sources queued in order b, a, c are
appended to the destination in order a, b, c. -/
theorem reverse_deps_flush_sorted_witness :
    (([⟨"t", "b"⟩, ⟨"t", "a"⟩, ⟨"t", "c"⟩] : List ReverseDep).Perm
      [⟨"t", "a"⟩, ⟨"t", "b"⟩, ⟨"t", "c"⟩]) ∧
    flushReverseDeps [⟨"t", "b"⟩, ⟨"t", "a"⟩, ⟨"t", "c"⟩] "t" ["d0"] =
      flushReverseDeps [⟨"t", "a"⟩, ⟨"t", "b"⟩, ⟨"t", "c"⟩] "t" ["d0"] ∧
    flushReverseDeps [⟨"t", "b"⟩, ⟨"t", "a"⟩, ⟨"t", "c"⟩] "t" ["d0"] =
      ["d0", "a", "b", "c"] := by
  have hp : (([⟨"t", "b"⟩, ⟨"t", "a"⟩, ⟨"t", "c"⟩] : List ReverseDep).Perm
      [⟨"t", "a"⟩, ⟨"t", "b"⟩, ⟨"t", "c"⟩]) := by decide
  have h := reverse_deps_flush_sorted _ _ "t" ["d0"] hp
  have hba : ¬ ((['b'] : List Char) ≤ ['a']) := by decide
  have hbc : ((['b'] : List Char) ≤ ['c']) := by decide
  have hac : ((['a'] : List Char) ≤ ['c']) := by decide
  refine ⟨hp, h.1, ?_⟩
  simp [flushReverseDeps, List.insertionSort, List.orderedInsert, hba, hbc, hac]

end SoongMutator
